import Mathlib

/-!
# GOOSE layer decoder and packet inspector (`src/pcap/pcap.go`)

A shallow embedding of the custom layer decoder `decodeGooseLayer`, of the
`GooseLayer` methods and of the packet inspector `handlePacket`, followed by
the properties established about them.

Conventions of the embedding:

* a Go `[]byte` is a `List Byte`, a byte being a natural number below 256;
* a Go `uint16` is a `Nat`, reduced modulo `65536` where the source computes it;
* a run-time panic of the Go program (index or slice bounds out of range, nil
  pointer dereference) is an `Except.error` carrying a `GoPanic`;
* the packet builder and the standard output are passed explicitly.
-/

namespace Goose

/-! ## Bytes, slices and run-time panics -/

/-- One octet of a Go byte slice. -/
abbrev Byte := Fin 256

/-- The run-time panics the Go program can raise in the embedded code. -/
inductive GoPanic where
  /-- Panic `index out of range [idx] with length len`. -/
  | indexOutOfRange (idx len : Nat)
  /-- Panic `slice bounds out of range [lo:len]`. -/
  | sliceBoundsOutOfRange (lo len : Nat)
  /-- Panic `invalid memory address or nil pointer dereference`. -/
  | nilDereference
  deriving DecidableEq, Repr

/-- Go slice expression `data[lo:]`: legal exactly when `lo ≤ len(data)`. -/
def sliceFrom (data : List Byte) (lo : Nat) : Except GoPanic (List Byte) :=
  if lo ≤ data.length then .ok (data.drop lo)
  else .error (.sliceBoundsOutOfRange lo data.length)

/-- Function `binary.LittleEndian.Uint16`: the bounds check `_ = b[1]`, then
`uint16(b[0]) | uint16(b[1])<<8`. -/
def LittleEndian.Uint16 : List Byte → Except GoPanic Nat
  | b0 :: b1 :: _ => .ok ((b0.val ||| (b1.val <<< 8) % 65536) % 65536)
  | b => .error (.indexOutOfRange 1 b.length)

/-- Function `binary.LittleEndian.PutUint16` on a fresh two-byte buffer:
`b[0] = byte(v)`, `b[1] = byte(v >> 8)`. -/
def LittleEndian.PutUint16 (v : Nat) : List Byte :=
  [⟨v % 256, Nat.mod_lt _ (by decide)⟩, ⟨(v >>> 8) % 256, Nat.mod_lt _ (by decide)⟩]

/-! ## Layer types -/

/-- Type `gopacket.LayerType`, a numeric layer type identifier. -/
abbrev LayerType := Int

/-- Identifier returned by `gopacket.RegisterLayerType(2001, ...)`. -/
def GooseLayerType : LayerType := 2001

/-- Identifier `layers.LayerTypeEthernet` of the decoding library. -/
def LayerTypeEthernet : LayerType := 17

/-- Identifier `gopacket.LayerTypePayload` of the decoding library. -/
def LayerTypePayload : LayerType := 2

/-- The process-wide layer type registry, reduced to what the inspector reads
from it: the display name registered for an identifier (`""` when none). -/
abbrev Registry := LayerType → String

/-- The registry of the running program as far as this file needs it: the
custom layer registered at start-up and the two library types named in the
source. -/
def registry : Registry := fun t =>
  if t = GooseLayerType then "GooseLayerType"
  else if t = LayerTypeEthernet then "Ethernet"
  else if t = LayerTypePayload then "Payload"
  else ""

/-- Method `LayerType.String`: the registered name, or the number in decimal
when no name is registered. -/
def LayerType.String (reg : Registry) (t : LayerType) : String :=
  if reg t = "" then toString t else reg t

/-! ## Layers -/

/-- Create custom layer structure (`type GooseLayer struct`). -/
structure GooseLayer where
  appid : Nat
  length : Nat
  reserved1 : Nat
  reserved2 : Nat
  data : List Byte
  deriving DecidableEq, Repr

/-- The fields of `layers.Ethernet` that the inspector reads. -/
structure Ethernet where
  SrcMAC : List Byte
  DstMAC : List Byte
  deriving DecidableEq, Repr

/-- A value of the interface `gopacket.Layer` by its dynamic type: the library
Ethernet layer, the custom layer, or any other library layer. Registration of a
layer type identifier is unique, so a layer of another dynamic type reports an
identifier different from the Ethernet and the custom one. -/
inductive Layer where
  | ethernet (e : Ethernet)
  | goose (g : GooseLayer)
  | other (t : LayerType) (contents payload : List Byte)
      (distinct : t ≠ LayerTypeEthernet ∧ t ≠ GooseLayerType)

/-- Method `GooseLayer.LayerType`. -/
def GooseLayer.LayerType (_l : GooseLayer) : LayerType := GooseLayerType

/-- Method `GooseLayer.LayerContents`: the source returns `[]byte{0, 0}`. -/
def GooseLayer.LayerContents (_l : GooseLayer) : List Byte := [0, 0]

/-- Method `GooseLayer.LayerPayload`: the source returns `l.data`. -/
def GooseLayer.LayerPayload (l : GooseLayer) : List Byte := l.data

/-- Method `LayerType()` of the interface `gopacket.Layer`. -/
def Layer.LayerType : Layer → LayerType
  | .ethernet _ => LayerTypeEthernet
  | .goose g => g.LayerType
  | .other t _ _ _ => t

/-! ## The packet builder and the decoder -/

/-- Modelled from the spec: the packet builder of the decoding library, which is
not among the sources; registering a layer appends it to the layer sequence of
the packet under construction. -/
structure PacketBuilder where
  layers : List Layer

/-- Modelled from the spec: what a decode function hands back to the pipeline,
either nothing more to decode (`return nil`) or the type to decode the rest
with (`return p.NextDecoder(t)`). -/
inductive Directive where
  | Done
  | Next (t : LayerType)
  deriving DecidableEq, Repr

/-- Method `PacketBuilder.AddLayer`: appends to the list of layers that the
packet has. -/
def PacketBuilder.AddLayer (p : PacketBuilder) (l : Layer) : PacketBuilder :=
  ⟨p.layers ++ [l]⟩

/-- Method `PacketBuilder.NextDecoder`: tells the packet what layer to expect
with the rest of the data. -/
def PacketBuilder.NextDecoder (_p : PacketBuilder) (next : LayerType) : Directive :=
  .Next next

/-- Custom decode function `decodeGooseLayer(data, p)`. The result pairs what
the call returns (or the panic that ends it) with the builder after the call. -/
def decodeGooseLayer (data : List Byte) (p : PacketBuilder) :
    Except GoPanic Directive × PacketBuilder :=
  -- appid := binary.LittleEndian.Uint16(data[0:])
  match sliceFrom data 0 >>= LittleEndian.Uint16 with
  | .error e => (.error e, p)
  | .ok appid =>
    -- length := binary.LittleEndian.Uint16(data[2:])
    match sliceFrom data 2 >>= LittleEndian.Uint16 with
    | .error e => (.error e, p)
    | .ok length =>
      -- p.AddLayer(&GooseLayer{appid, length, 0, 0, data[8:]})
      match sliceFrom data 8 with
      | .error e => (.error e, p)
      | .ok rest =>
        let p1 := p.AddLayer (.goose ⟨appid, length, 0, 0, rest⟩)
        -- return p.NextDecoder(gopacket.LayerTypePayload)
        (.ok (p1.NextDecoder LayerTypePayload), p1)

/-! ## The packet inspector -/

/-- A decoded packet (`gopacket.Packet`): its layers in decode order. -/
structure Packet where
  layers : List Layer

/-- Method `Packet.Layers`. -/
def Packet.Layers (packet : Packet) : List Layer := packet.layers

/-- Method `Packet.Layer(t)`: the first layer of the given type, if any. -/
def Packet.Layer (packet : Packet) (t : LayerType) : Option Layer :=
  packet.layers.find? (fun l => l.LayerType == t)

/-- Lower-case hexadecimal digit, `hexDigit[n]` of package `net`, where
`const hexDigit = "0123456789abcdef"`. -/
def hexDigit (n : Nat) : Char :=
  "0123456789abcdef".data.getD n '0'

/-- Method `net.HardwareAddr.String`: two hexadecimal digits per byte, the
bytes separated by colons, the empty string for an empty address. -/
def HardwareAddr.String (a : List Byte) : String :=
  ":".intercalate (a.map fun b => String.mk [hexDigit (b.val >>> 4), hexDigit (b.val &&& 0xF)])

/-- How `fmt.Println` renders a `[]byte` operand: decimal values separated by
blanks, between square brackets. -/
def fmtBytes (bs : List Byte) : String :=
  "[" ++ " ".intercalate (bs.map fun b => toString b.val) ++ "]"

/-- Call `fmt.Println(a, b)` of two operands already rendered: they are
separated by one blank; the result is one line of output. -/
def Println2 (a b : String) : String := a ++ " " ++ b

/-- The address line, written by `fmt.Printf("%s >> ", SrcMAC)` followed by
`fmt.Printf("%s\n", DstMAC)`. -/
def addressLine (e : Ethernet) : String :=
  HardwareAddr.String e.SrcMAC ++ " >> " ++ HardwareAddr.String e.DstMAC

/-- The four lines written for the custom layer inside the Ethernet branch. -/
def gooseLines (g : GooseLayer) : List String :=
  [ "Packet was successfully decoded with Goose layer decoder.",
    Println2 "Payload: " (fmtBytes g.LayerPayload),
    Println2 "SomeByte element:" (toString g.appid),
    Println2 "AnotherByte element:" (toString g.length) ]

/-- The line written by `fmt.Println("- ", layer.LayerType())`. -/
def layerLine (reg : Registry) (layer : Layer) : String :=
  Println2 "- " (LayerType.String reg layer.LayerType)

/-- The loop `for _, layer := range packet.Layers()` at the end of
`handlePacket`. -/
def layerLines (reg : Registry) (packet : Packet) : List String :=
  packet.Layers.map (layerLine reg)

/-- Function `handlePacket(packet)`: the lines it writes to standard output, or
the panic that ends it. The two type assertions `x, _ := l.(*T)` yield a nil
pointer when the dynamic type differs, and the field access or method call that
follows then panics. -/
def handlePacket (reg : Registry) (packet : Packet) : Except GoPanic (List String) :=
  match packet.Layer LayerTypeEthernet with
  | none => .ok (layerLines reg packet)
  | some (.ethernet ethernetPacket) =>
    match packet.Layer GooseLayerType with
    | none => .ok (addressLine ethernetPacket :: layerLines reg packet)
    | some (.goose gooseLayerContent) =>
      .ok (addressLine ethernetPacket :: gooseLines gooseLayerContent ++ layerLines reg packet)
    | some _ => .error .nilDereference
  | some _ => .error .nilDereference

/-! ## Sample inputs -/

/-- Header bytes `34 12 10 00 00 00 00 00` followed by payload `AA BB CC`. -/
def sampleData : List Byte := [0x34, 0x12, 0x10, 0x00, 0x00, 0x00, 0x00, 0x00, 0xAA, 0xBB, 0xCC]

/-- An empty packet builder. -/
def emptyBuilder : PacketBuilder := ⟨[]⟩

/-- Header `34 12 10 00` with reserved bytes `01 02 03 04` and no payload. -/
def reservedData : List Byte := [0x34, 0x12, 0x10, 0x00, 0x01, 0x02, 0x03, 0x04]

/-- The packet `[Ethernet, Goose, Payload]` decoded from a frame that carries
the sample bytes. -/
def samplePacket : Packet :=
  ⟨[.ethernet ⟨[0x00, 0x01, 0x02, 0xab, 0x04, 0x05], [0x01, 0x0c, 0xcd, 0x01, 0x00, 0x01]⟩,
    .goose ⟨4660, 16, 0, 0, [0xAA, 0xBB, 0xCC]⟩,
    .other LayerTypePayload [0xAA, 0xBB, 0xCC] [] (by decide)]⟩

/-- A packet whose only layer is the sample Goose layer. -/
def gooseOnlyPacket : Packet := ⟨[.goose ⟨4660, 16, 0, 0, [0xAA, 0xBB, 0xCC]⟩]⟩

/-- The panic that ends `decodeGooseLayer` on an input of `n < 8` bytes: the
bounds check of `Uint16` on `data[0:]` (`n < 2`) or on `data[2:]` (`n < 4`),
otherwise the slice expression `data[8:]`. -/
def truncatedPanic (n : Nat) : GoPanic :=
  if n < 2 then .indexOutOfRange 1 n
  else if n < 4 then .indexOutOfRange 1 (n - 2)
  else .sliceBoundsOutOfRange 8 n

/-! ## Helper lemmas -/

theorem le16_value (b0 b1 : Byte) :
    (b0.val ||| (b1.val <<< 8) % 65536) % 65536 = b0.val + 256 * b1.val := by
  have h0 : b0.val < 2 ^ 8 := b0.isLt
  have h1 : b1.val < 256 := b1.isLt
  have hs : b1.val <<< 8 = 2 ^ 8 * b1.val := by rw [Nat.shiftLeft_eq, Nat.mul_comm]
  have hor : 2 ^ 8 * b1.val + b0.val = 2 ^ 8 * b1.val ||| b0.val := Nat.mul_add_lt_is_or h0 _
  have hm : 2 ^ 8 * b1.val % 65536 = 2 ^ 8 * b1.val := Nat.mod_eq_of_lt (by omega)
  rw [hs, hm, Nat.or_comm, ← hor, Nat.mod_eq_of_lt (by omega)]
  omega

theorem Uint16_cons_cons (b0 b1 : Byte) (rest : List Byte) :
    LittleEndian.Uint16 (b0 :: b1 :: rest) = .ok (b0.val + 256 * b1.val) := by
  simp only [LittleEndian.Uint16, le16_value]

theorem exists_header (data : List Byte) (h : 8 ≤ data.length) :
    ∃ b0 b1 b2 b3 b4 b5 b6 b7 rest, data = b0 :: b1 :: b2 :: b3 :: b4 :: b5 :: b6 :: b7 :: rest := by
  match data, h with
  | b0 :: b1 :: b2 :: b3 :: b4 :: b5 :: b6 :: b7 :: rest, _ =>
    exact ⟨b0, b1, b2, b3, b4, b5, b6, b7, rest, rfl⟩

theorem decodeGooseLayer_header (b0 b1 b2 b3 b4 b5 b6 b7 : Byte) (rest : List Byte)
    (p : PacketBuilder) :
    decodeGooseLayer (b0 :: b1 :: b2 :: b3 :: b4 :: b5 :: b6 :: b7 :: rest) p =
      (.ok (.Next LayerTypePayload),
        ⟨p.layers ++ [.goose ⟨b0.val + 256 * b1.val, b2.val + 256 * b3.val, 0, 0, rest⟩]⟩) := by
  simp [decodeGooseLayer, sliceFrom, bind, Except.bind, Uint16_cons_cons,
    PacketBuilder.AddLayer, PacketBuilder.NextDecoder]

/-! ## Properties of the decoder -/

/-- Claim C1: for every byte sequence of at least 8 bytes, `decodeGooseLayer`
adds a `GooseLayer` whose `appid` is `data[0] + 256*data[1]` and whose `length`
is `data[2] + 256*data[3]`. -/
theorem decodeGooseLayer_appid_length (data : List Byte) (p : PacketBuilder)
    (h : 8 ≤ data.length) :
    ∃ g : GooseLayer,
      (decodeGooseLayer data p).2.layers = p.layers ++ [Layer.goose g] ∧
      g.appid = (data.get ⟨0, by omega⟩).val + 256 * (data.get ⟨1, by omega⟩).val ∧
      g.length = (data.get ⟨2, by omega⟩).val + 256 * (data.get ⟨3, by omega⟩).val := by
  obtain ⟨b0, b1, b2, b3, b4, b5, b6, b7, rest, rfl⟩ := exists_header data h
  exact ⟨_, by rw [decodeGooseLayer_header], rfl, rfl⟩

/-- Claim C1 at the sample input: header `34 12 10 00 00 00 00 00` followed by
`AA BB CC` gives `appid = 4660` and `length = 16`. -/
theorem decodeGooseLayer_appid_length_sample :
    8 ≤ sampleData.length ∧
    ∃ g : GooseLayer,
      (decodeGooseLayer sampleData emptyBuilder).2.layers = emptyBuilder.layers ++ [Layer.goose g] ∧
      g.appid = 4660 ∧ g.length = 16 := by
  have h : 8 ≤ sampleData.length := by decide
  obtain ⟨g, hl, ha, hn⟩ := decodeGooseLayer_appid_length sampleData emptyBuilder h
  exact ⟨h, g, hl, ha, hn⟩

/-- Claim C2 fails as stated: on the five bytes `34 12 10 00 00` the decoder
does not return an error value, it panics with `slice bounds out of range
[8:5]`. -/
theorem decodeGooseLayer_short_panics :
    (decodeGooseLayer [0x34, 0x12, 0x10, 0x00, 0x00] emptyBuilder).1 =
      .error (.sliceBoundsOutOfRange 8 5) := by
  rfl

/-- Claim C2 as amended: for every byte sequence of fewer than 8 bytes,
`decodeGooseLayer` returns no value; it ends in an out-of-range panic (index
`[1]` in `Uint16` below 4 bytes, slice bounds `[8:len]` from 4 to 7 bytes) and
leaves the packet builder as it was, no layer added. -/
theorem decodeGooseLayer_short (data : List Byte) (p : PacketBuilder)
    (h : data.length < 8) :
    decodeGooseLayer data p = (.error (truncatedPanic data.length), p) := by
  match data, h with
  | [], _ => rfl
  | [_], _ => rfl
  | [_, _], _ => rfl
  | [_, _, _], _ => rfl
  | [_, _, _, _], _ => rfl
  | [_, _, _, _, _], _ => rfl
  | [_, _, _, _, _, _], _ => rfl
  | [_, _, _, _, _, _, _], _ => rfl
  | _ :: _ :: _ :: _ :: _ :: _ :: _ :: _ :: _, h => simp at h; omega

/-- Claim C2 as amended, at a three-byte input: the panic is `index out of
range [1] with length 1`, raised by `Uint16(data[2:])`. -/
theorem decodeGooseLayer_short_sample :
    ([0x34, 0x12, 0x10] : List Byte).length < 8 ∧
    decodeGooseLayer [0x34, 0x12, 0x10] emptyBuilder =
      (.error (.indexOutOfRange 1 1), emptyBuilder) :=
  ⟨by decide, decodeGooseLayer_short [0x34, 0x12, 0x10] emptyBuilder (by decide)⟩

/-- Claim C3: for every byte sequence of at least 8 bytes, the `GooseLayer`
added by `decodeGooseLayer` has `LayerPayload()` equal to `data[8:]`, of length
`len(data) - 8`, empty exactly when `len(data) = 8`. -/
theorem decodeGooseLayer_payload (data : List Byte) (p : PacketBuilder)
    (h : 8 ≤ data.length) :
    ∃ g : GooseLayer,
      (decodeGooseLayer data p).2.layers = p.layers ++ [Layer.goose g] ∧
      g.LayerPayload = data.drop 8 ∧
      g.LayerPayload.length = data.length - 8 ∧
      (g.LayerPayload = [] ↔ data.length = 8) := by
  obtain ⟨b0, b1, b2, b3, b4, b5, b6, b7, rest, rfl⟩ := exists_header data h
  refine ⟨⟨b0.val + 256 * b1.val, b2.val + 256 * b3.val, 0, 0, rest⟩,
    by rw [decodeGooseLayer_header], rfl, ?_, ?_⟩
  · simp [GooseLayer.LayerPayload]
  · simp [GooseLayer.LayerPayload]

/-- Claim C3 at the sample input: the payload of `34 12 10 00 00 00 00 00 AA BB
CC` is `[0xAA, 0xBB, 0xCC]`. -/
theorem decodeGooseLayer_payload_sample :
    8 ≤ sampleData.length ∧
    ∃ g : GooseLayer,
      (decodeGooseLayer sampleData emptyBuilder).2.layers = emptyBuilder.layers ++ [Layer.goose g] ∧
      g.LayerPayload = [0xAA, 0xBB, 0xCC] := by
  have h : 8 ≤ sampleData.length := by decide
  obtain ⟨g, hl, hp, _, _⟩ := decodeGooseLayer_payload sampleData emptyBuilder h
  exact ⟨h, g, hl, hp⟩

theorem PutUint16_le16 (b0 b1 : Byte) :
    LittleEndian.PutUint16 (b0.val + 256 * b1.val) = [b0, b1] := by
  have h0 : b0.val < 256 := b0.isLt
  have h1 : b1.val < 256 := b1.isLt
  simp only [LittleEndian.PutUint16, Nat.shiftRight_eq_div_pow, List.cons.injEq, and_true]
  constructor
  · apply Fin.ext
    show (b0.val + 256 * b1.val) % 256 = b0.val
    omega
  · apply Fin.ext
    show (b0.val + 256 * b1.val) / 2 ^ 8 % 256 = b1.val
    omega

theorem Uint16_PutUint16 (v : Nat) (hv : v < 65536) (rest : List Byte) :
    LittleEndian.Uint16 (LittleEndian.PutUint16 v ++ rest) = .ok v := by
  simp only [LittleEndian.PutUint16, List.cons_append, List.nil_append, Uint16_cons_cons,
    Nat.shiftRight_eq_div_pow]
  congr 1
  omega

/-- Claim C4: round trip of the header fields. Encoding the decoded `appid`
and `length` as 16-bit little-endian values gives back the first four bytes of
the input; and decoding a buffer that starts with the little-endian encodings
of two 16-bit values `a` and `l`, followed by at least 4 more bytes, yields
`appid = a` and `length = l`. -/
theorem header_round_trip :
    (∀ (data : List Byte) (p : PacketBuilder), 8 ≤ data.length →
      ∃ g : GooseLayer,
        (decodeGooseLayer data p).2.layers = p.layers ++ [Layer.goose g] ∧
        LittleEndian.PutUint16 g.appid ++ LittleEndian.PutUint16 g.length = data.take 4) ∧
    (∀ (a l : Nat) (rest : List Byte) (p : PacketBuilder),
      a < 65536 → l < 65536 → 4 ≤ rest.length →
      ∃ g : GooseLayer,
        (decodeGooseLayer (LittleEndian.PutUint16 a ++ LittleEndian.PutUint16 l ++ rest) p).2.layers
          = p.layers ++ [Layer.goose g] ∧
        g.appid = a ∧ g.length = l) := by
  constructor
  · intro data p h
    obtain ⟨b0, b1, b2, b3, b4, b5, b6, b7, rest, rfl⟩ := exists_header data h
    refine ⟨⟨b0.val + 256 * b1.val, b2.val + 256 * b3.val, 0, 0, rest⟩,
      by rw [decodeGooseLayer_header], ?_⟩
    simp [PutUint16_le16]
  · intro a l rest p ha hl hr
    match rest, hr with
    | r0 :: r1 :: r2 :: r3 :: rest, _ =>
      have hA := Uint16_PutUint16 a ha []
      have hL := Uint16_PutUint16 l hl []
      simp only [LittleEndian.PutUint16, List.cons_append, List.nil_append,
        Uint16_cons_cons, Except.ok.injEq] at hA hL
      refine ⟨⟨a, l, 0, 0, rest⟩, ?_, rfl, rfl⟩
      simp only [LittleEndian.PutUint16, List.cons_append, List.nil_append,
        decodeGooseLayer_header, hA, hL]

/-- Claim C4 at the sample input and at the pair `(4660, 16)`. -/
theorem header_round_trip_sample :
    (8 ≤ sampleData.length ∧
      ∃ g : GooseLayer,
        (decodeGooseLayer sampleData emptyBuilder).2.layers = emptyBuilder.layers ++ [Layer.goose g] ∧
        LittleEndian.PutUint16 g.appid ++ LittleEndian.PutUint16 g.length = [0x34, 0x12, 0x10, 0x00]) ∧
    (4660 < 65536 ∧ 16 < 65536 ∧ 4 ≤ ([0, 0, 0, 0, 0xAA] : List Byte).length ∧
      ∃ g : GooseLayer,
        (decodeGooseLayer
            (LittleEndian.PutUint16 4660 ++ LittleEndian.PutUint16 16 ++ [0, 0, 0, 0, 0xAA])
            emptyBuilder).2.layers = emptyBuilder.layers ++ [Layer.goose g] ∧
        g.appid = 4660 ∧ g.length = 16) :=
  ⟨⟨by decide, header_round_trip.1 sampleData emptyBuilder (by decide)⟩,
   ⟨by decide, by decide, by decide,
    header_round_trip.2 4660 16 [0, 0, 0, 0, 0xAA] emptyBuilder (by decide) (by decide) (by decide)⟩⟩

theorem added_layer_unique (ls : List Layer) (g g' : GooseLayer)
    (h : ls ++ [Layer.goose g] = ls ++ [Layer.goose g']) : g = g' := by
  have h1 := List.append_cancel_left h
  simp only [List.cons.injEq, Layer.goose.injEq, and_true] at h1
  exact h1

/-- Claim C5 fails as stated: on the header `34 12 10 00 01 02 03 04` the
little-endian values of bytes [4,6) and [6,8) are 513 and 1027, and the layer
added by the decoder does not carry them in `reserved1` and `reserved2`. -/
theorem decodeGooseLayer_reserved_not_read :
    ¬ ∃ g : GooseLayer,
      (decodeGooseLayer reservedData emptyBuilder).2.layers
        = emptyBuilder.layers ++ [Layer.goose g] ∧
      g.reserved1 = (reservedData.get ⟨4, by decide⟩).val
        + 256 * (reservedData.get ⟨5, by decide⟩).val ∧
      g.reserved2 = (reservedData.get ⟨6, by decide⟩).val
        + 256 * (reservedData.get ⟨7, by decide⟩).val := by
  rintro ⟨g, hl, h1, _⟩
  have hd : (decodeGooseLayer reservedData emptyBuilder).2.layers
      = emptyBuilder.layers ++ [Layer.goose ⟨4660, 16, 0, 0, []⟩] := rfl
  have hg := added_layer_unique _ _ _ (hl.symm.trans hd)
  subst hg
  exact absurd h1 (by decide)

/-- Claim C5 as amended: for every byte sequence of at least 8 bytes, the
`GooseLayer` added by `decodeGooseLayer` has `reserved1 = 0` and `reserved2 =
0`; they equal the 16-bit little-endian values of bytes [4,6) and [6,8) exactly
when those bytes are zero. -/
theorem decodeGooseLayer_reserved (data : List Byte) (p : PacketBuilder)
    (h : 8 ≤ data.length) :
    ∃ g : GooseLayer,
      (decodeGooseLayer data p).2.layers = p.layers ++ [Layer.goose g] ∧
      g.reserved1 = 0 ∧ g.reserved2 = 0 ∧
      (g.reserved1 = (data.get ⟨4, by omega⟩).val + 256 * (data.get ⟨5, by omega⟩).val ↔
        (data.get ⟨4, by omega⟩).val = 0 ∧ (data.get ⟨5, by omega⟩).val = 0) ∧
      (g.reserved2 = (data.get ⟨6, by omega⟩).val + 256 * (data.get ⟨7, by omega⟩).val ↔
        (data.get ⟨6, by omega⟩).val = 0 ∧ (data.get ⟨7, by omega⟩).val = 0) := by
  obtain ⟨b0, b1, b2, b3, b4, b5, b6, b7, rest, rfl⟩ := exists_header data h
  refine ⟨⟨b0.val + 256 * b1.val, b2.val + 256 * b3.val, 0, 0, rest⟩,
    by rw [decodeGooseLayer_header], rfl, rfl, ?_, ?_⟩
  · show 0 = b4.val + 256 * b5.val ↔ b4.val = 0 ∧ b5.val = 0
    omega
  · show 0 = b6.val + 256 * b7.val ↔ b6.val = 0 ∧ b7.val = 0
    omega

/-- Claim C5 as amended, at the header `34 12 10 00 01 02 03 04`: both
reserved fields of the added layer are zero. -/
theorem decodeGooseLayer_reserved_sample :
    8 ≤ reservedData.length ∧
    ∃ g : GooseLayer,
      (decodeGooseLayer reservedData emptyBuilder).2.layers
        = emptyBuilder.layers ++ [Layer.goose g] ∧
      g.reserved1 = 0 ∧ g.reserved2 = 0 := by
  have h : 8 ≤ reservedData.length := by decide
  obtain ⟨g, hl, h1, h2, _, _⟩ := decodeGooseLayer_reserved reservedData emptyBuilder h
  exact ⟨h, g, hl, h1, h2⟩

theorem take_drop_of_getElem? (data data' : List Byte)
    (hsame : ∀ i : Nat, i < 4 ∨ 8 ≤ i → data[i]? = data'[i]?) :
    data.take 4 = data'.take 4 ∧ data.drop 8 = data'.drop 8 := by
  constructor
  · apply List.ext_getElem?
    intro n
    by_cases hn : n < 4
    · simp [List.getElem?_take, hn, hsame n (Or.inl hn)]
    · simp [List.getElem?_take, hn]
  · apply List.ext_getElem?
    intro n
    simp only [List.getElem?_drop]
    exact hsame (8 + n) (Or.inr (by omega))

/-- Claim C6: for every byte sequence of at least 8 bytes, the `GooseLayer`
added by `decodeGooseLayer` has `reserved1 = 0` and `reserved2 = 0` whatever
bytes 4..7 are; and two inputs of at least 8 bytes that agree at every index
outside 4..7 give the same result and the same layers. -/
theorem decodeGooseLayer_ignores_reserved :
    (∀ (data : List Byte) (p : PacketBuilder), 8 ≤ data.length →
      ∃ g : GooseLayer,
        (decodeGooseLayer data p).2.layers = p.layers ++ [Layer.goose g] ∧
        g.reserved1 = 0 ∧ g.reserved2 = 0) ∧
    (∀ (data data' : List Byte) (p : PacketBuilder),
      8 ≤ data.length → 8 ≤ data'.length →
      (∀ i : Nat, i < 4 ∨ 8 ≤ i → data[i]? = data'[i]?) →
      decodeGooseLayer data p = decodeGooseLayer data' p) := by
  constructor
  · intro data p h
    obtain ⟨b0, b1, b2, b3, b4, b5, b6, b7, rest, rfl⟩ := exists_header data h
    exact ⟨⟨b0.val + 256 * b1.val, b2.val + 256 * b3.val, 0, 0, rest⟩,
      by rw [decodeGooseLayer_header], rfl, rfl⟩
  · intro data data' p h h' hsame
    obtain ⟨ht, hd⟩ := take_drop_of_getElem? data data' hsame
    obtain ⟨b0, b1, b2, b3, b4, b5, b6, b7, rest, rfl⟩ := exists_header data h
    obtain ⟨c0, c1, c2, c3, c4, c5, c6, c7, rest', rfl⟩ := exists_header data' h'
    simp only [List.take_succ_cons, List.take_zero, List.cons.injEq, and_true] at ht
    simp only [List.drop_succ_cons, List.drop_zero] at hd
    obtain ⟨rfl, rfl, rfl, rfl⟩ := ht
    subst hd
    rw [decodeGooseLayer_header, decodeGooseLayer_header]

/-- Claim C6 at two inputs that differ in bytes 4..7 only: the sample input
and the same bytes with `01 02 03 04` in the reserved positions. -/
theorem decodeGooseLayer_ignores_reserved_sample :
    (8 ≤ reservedData.length ∧
      ∃ g : GooseLayer,
        (decodeGooseLayer reservedData emptyBuilder).2.layers
          = emptyBuilder.layers ++ [Layer.goose g] ∧
        g.reserved1 = 0 ∧ g.reserved2 = 0) ∧
    decodeGooseLayer sampleData emptyBuilder =
      decodeGooseLayer [0x34, 0x12, 0x10, 0x00, 0x01, 0x02, 0x03, 0x04, 0xAA, 0xBB, 0xCC]
        emptyBuilder :=
  ⟨⟨by decide, decodeGooseLayer_ignores_reserved.1 reservedData emptyBuilder (by decide)⟩,
   decodeGooseLayer_ignores_reserved.2 sampleData
    [0x34, 0x12, 0x10, 0x00, 0x01, 0x02, 0x03, 0x04, 0xAA, 0xBB, 0xCC] emptyBuilder
    (by decide) (by decide) (by
      intro i hi
      match i, hi with
      | 0, _ | 1, _ | 2, _ | 3, _ | 8, _ | 9, _ | 10, _ => rfl
      | 4, hi | 5, hi | 6, hi | 7, hi => omega
      | _ + 11, _ => rfl)⟩

/-- Claim C7: for every byte sequence of at least 8 bytes and every packet
builder, `decodeGooseLayer` appends exactly one layer, a `GooseLayer`, after the
layers already in the builder, which stay unchanged and in order, and it returns
`p.NextDecoder(LayerTypePayload)`: never `nil` (done) and never the directive
for another layer type. -/
theorem decodeGooseLayer_frame (data : List Byte) (p : PacketBuilder)
    (h : 8 ≤ data.length) :
    (∃ g : GooseLayer,
      (decodeGooseLayer data p).2.layers = p.layers ++ [Layer.goose g]) ∧
    (decodeGooseLayer data p).2.layers.length = p.layers.length + 1 ∧
    (decodeGooseLayer data p).2.layers.take p.layers.length = p.layers ∧
    (decodeGooseLayer data p).1
      = .ok ((decodeGooseLayer data p).2.NextDecoder LayerTypePayload) ∧
    (decodeGooseLayer data p).1 = .ok (.Next LayerTypePayload) ∧
    (decodeGooseLayer data p).1 ≠ .ok .Done ∧
    (∀ t : LayerType, t ≠ LayerTypePayload → (decodeGooseLayer data p).1 ≠ .ok (.Next t)) := by
  obtain ⟨b0, b1, b2, b3, b4, b5, b6, b7, rest, rfl⟩ := exists_header data h
  rw [decodeGooseLayer_header]
  refine ⟨⟨_, rfl⟩, by simp, by simp, rfl, rfl, by simp, ?_⟩
  intro t ht hEq
  simp only [Except.ok.injEq, Directive.Next.injEq] at hEq
  exact ht hEq.symm

/-- Claim C7 at the sample input, on a builder that already holds an Ethernet
layer. -/
theorem decodeGooseLayer_frame_sample :
    8 ≤ sampleData.length ∧
    (decodeGooseLayer sampleData ⟨[Layer.ethernet ⟨[0, 1, 2, 3, 4, 5], [6, 7, 8, 9, 10, 11]⟩]⟩).2.layers.length
      = 2 ∧
    (decodeGooseLayer sampleData ⟨[Layer.ethernet ⟨[0, 1, 2, 3, 4, 5], [6, 7, 8, 9, 10, 11]⟩]⟩).1
      = .ok (.Next LayerTypePayload) := by
  have h : 8 ≤ sampleData.length := by decide
  have t := decodeGooseLayer_frame sampleData
    ⟨[Layer.ethernet ⟨[0, 1, 2, 3, 4, 5], [6, 7, 8, 9, 10, 11]⟩]⟩ h
  exact ⟨h, t.2.1, t.2.2.2.2.1⟩

/-! ## Properties of the inspector -/

theorem Layer_ethernet_of_find (packet : Packet) (l : Layer)
    (h : packet.Layer LayerTypeEthernet = some l) : ∃ e, l = .ethernet e := by
  have hp := List.find?_some h
  cases l with
  | ethernet e => exact ⟨e, rfl⟩
  | goose g =>
    simp [Layer.LayerType, GooseLayer.LayerType, GooseLayerType, LayerTypeEthernet] at hp
  | other t c d distinct =>
    simp only [Layer.LayerType, beq_iff_eq] at hp
    exact absurd hp distinct.1

theorem Layer_goose_of_find (packet : Packet) (l : Layer)
    (h : packet.Layer GooseLayerType = some l) : ∃ g, l = .goose g := by
  have hp := List.find?_some h
  cases l with
  | ethernet e =>
    simp [Layer.LayerType, GooseLayerType, LayerTypeEthernet] at hp
  | goose g => exact ⟨g, rfl⟩
  | other t c d distinct =>
    simp only [Layer.LayerType, beq_iff_eq] at hp
    exact absurd hp distinct.2

theorem Layer_some_of_mem (packet : Packet) (t : LayerType)
    (h : ∃ l ∈ packet.Layers, l.LayerType = t) : ∃ l, packet.Layer t = some l := by
  obtain ⟨l, hl, ht⟩ := h
  cases hf : packet.Layer t with
  | some l' => exact ⟨l', rfl⟩
  | none =>
    have hn := List.find?_eq_none.mp hf l hl
    simp [ht] at hn

theorem Layer_none_of_not_mem (packet : Packet) (t : LayerType)
    (h : ∀ l ∈ packet.Layers, l.LayerType ≠ t) : packet.Layer t = none := by
  apply List.find?_eq_none.mpr
  intro l hl
  simpa using h l hl

/-- Claim C8 fails as stated: for the packet whose layers are `[GooseLayer]`
alone, `handlePacket` writes the layer type line only; the payload, appID and
length lines are not in its output. -/
theorem handlePacket_goose_alone :
    gooseOnlyPacket.Layer GooseLayerType
      = some (.goose ⟨4660, 16, 0, 0, [0xAA, 0xBB, 0xCC]⟩) ∧
    handlePacket registry gooseOnlyPacket = .ok ["-  GooseLayerType"] ∧
    "Payload:  [170 187 204]" ∉ ["-  GooseLayerType"] ∧
    "SomeByte element: 4660" ∉ ["-  GooseLayerType"] ∧
    "AnotherByte element: 16" ∉ ["-  GooseLayerType"] := by
  refine ⟨rfl, rfl, ?_, ?_, ?_⟩ <;> decide

/-- Claim C8 as amended: for every packet that contains an Ethernet layer and
a Goose layer, `handlePacket` writes the address line, the confirmation line and
the payload, appID and length of the (first) Goose layer, then the layer type
lines; for every packet without an Ethernet layer it writes the layer type
lines only. -/
theorem handlePacket_goose (reg : Registry) (packet : Packet) :
    ((∃ l ∈ packet.Layers, l.LayerType = LayerTypeEthernet) →
     (∃ l ∈ packet.Layers, l.LayerType = GooseLayerType) →
      ∃ e g, packet.Layer LayerTypeEthernet = some (.ethernet e) ∧
        packet.Layer GooseLayerType = some (.goose g) ∧
        handlePacket reg packet = .ok
          ([addressLine e,
            "Packet was successfully decoded with Goose layer decoder.",
            Println2 "Payload: " (fmtBytes g.LayerPayload),
            Println2 "SomeByte element:" (toString g.appid),
            Println2 "AnotherByte element:" (toString g.length)]
            ++ layerLines reg packet)) ∧
    ((∀ l ∈ packet.Layers, l.LayerType ≠ LayerTypeEthernet) →
      handlePacket reg packet = .ok (layerLines reg packet)) := by
  constructor
  · intro hE hG
    obtain ⟨l, hl⟩ := Layer_some_of_mem packet _ hE
    obtain ⟨e, rfl⟩ := Layer_ethernet_of_find packet l hl
    obtain ⟨l', hl'⟩ := Layer_some_of_mem packet _ hG
    obtain ⟨g, rfl⟩ := Layer_goose_of_find packet l' hl'
    refine ⟨e, g, hl, hl', ?_⟩
    simp [handlePacket, hl, hl', gooseLines]
  · intro hE
    simp [handlePacket, Layer_none_of_not_mem packet _ hE]

/-- Claim C8 as amended, at the packet `[Ethernet, Goose, Payload]` and at the
packet `[Goose]`. -/
theorem handlePacket_goose_sample :
    ((∃ l ∈ samplePacket.Layers, l.LayerType = LayerTypeEthernet) ∧
     (∃ l ∈ samplePacket.Layers, l.LayerType = GooseLayerType) ∧
      ∃ e g, samplePacket.Layer LayerTypeEthernet = some (.ethernet e) ∧
        samplePacket.Layer GooseLayerType = some (.goose g) ∧
        handlePacket registry samplePacket = .ok
          ([addressLine e,
            "Packet was successfully decoded with Goose layer decoder.",
            Println2 "Payload: " (fmtBytes g.LayerPayload),
            Println2 "SomeByte element:" (toString g.appid),
            Println2 "AnotherByte element:" (toString g.length)]
            ++ layerLines registry samplePacket)) ∧
    ((∀ l ∈ gooseOnlyPacket.Layers, l.LayerType ≠ LayerTypeEthernet) ∧
      handlePacket registry gooseOnlyPacket = .ok (layerLines registry gooseOnlyPacket)) := by
  have hE : ∃ l ∈ samplePacket.Layers, l.LayerType = LayerTypeEthernet :=
    ⟨_, List.mem_cons_self _ _, rfl⟩
  have hG : ∃ l ∈ samplePacket.Layers, l.LayerType = GooseLayerType :=
    ⟨_, List.mem_cons_of_mem _ (List.mem_cons_self _ _), rfl⟩
  have hN : ∀ l ∈ gooseOnlyPacket.Layers, l.LayerType ≠ LayerTypeEthernet := by
    intro l hl
    simp only [gooseOnlyPacket, Packet.Layers, List.mem_singleton] at hl
    subst hl
    decide
  exact ⟨⟨hE, hG, (handlePacket_goose registry samplePacket).1 hE hG⟩,
    ⟨hN, (handlePacket_goose registry gooseOnlyPacket).2 hN⟩⟩

theorem intercalate_go_head (s : String) (l : List String) (acc : String)
    (h : acc.data ≠ []) :
    (String.intercalate.go acc s l).data.head? = acc.data.head? := by
  induction l generalizing acc with
  | nil => rfl
  | cons a as ih =>
    simp only [String.intercalate.go]
    rw [ih (acc ++ s ++ a) (by simp [String.data_append, h])]
    simp only [String.data_append, List.append_assoc]
    cases hd : acc.data with
    | nil => exact absurd hd h
    | cons c cs => rfl

theorem hexDigit_ne_dash (n : Nat) : hexDigit n ≠ '-' := by
  unfold hexDigit
  by_cases h : n < 16
  · interval_cases n <;> decide
  · simp only [List.getD_eq_getElem?_getD]
    rw [List.getElem?_eq_none (by simp; omega)]
    decide

theorem addressLine_head (e : Ethernet) : (addressLine e).data.head? ≠ some '-' := by
  obtain ⟨src, dst⟩ := e
  cases src with
  | nil =>
    simp [addressLine, HardwareAddr.String, String.intercalate, String.data_append]
  | cons b bs =>
    simp only [addressLine, HardwareAddr.String, List.map_cons, String.intercalate,
      String.data_append, List.append_assoc]
    rw [List.head?_append_of_ne_nil _ (by
      intro hnil
      have := intercalate_go_head ":" (bs.map fun b =>
        String.mk [hexDigit (b.val >>> 4), hexDigit (b.val &&& 0xF)])
        (String.mk [hexDigit (b.val >>> 4), hexDigit (b.val &&& 0xF)]) (by simp)
      rw [hnil] at this
      simp at this)]
    rw [intercalate_go_head _ _ _ (by simp)]
    simp [hexDigit_ne_dash]

theorem gooseLines_head (g : GooseLayer) :
    ∀ s ∈ gooseLines g, s.data.head? ≠ some '-' := by
  intro s hs
  simp only [gooseLines, List.mem_cons, List.mem_singleton, List.not_mem_nil, or_false] at hs
  rcases hs with rfl | rfl | rfl | rfl
  · decide
  · simp [Println2, String.data_append]
  · simp [Println2, String.data_append]
  · simp [Println2, String.data_append]

theorem layerLine_head (reg : Registry) (l : Layer) :
    (layerLine reg l).data.head? = some '-' := by
  simp [layerLine, Println2, String.data_append]

/-- Claim C9: for every packet, `handlePacket` returns and its output ends
with one line per element of `packet.Layers()`, in the same order, each being
`"- "`, a blank and the type name of that layer; there are as many of them as
layers, the lines written before them are the address line and the Goose lines
only (none of which starts with a dash), and a packet without layers gives no
output at all. -/
theorem handlePacket_layer_lines (reg : Registry) (packet : Packet) :
    ∃ pre : List String,
      handlePacket reg packet
        = .ok (pre ++ packet.Layers.map
            (fun layer => "- " ++ " " ++ LayerType.String reg layer.LayerType)) ∧
      (packet.Layers.map
        (fun layer => "- " ++ " " ++ LayerType.String reg layer.LayerType)).length
        = packet.Layers.length ∧
      (∀ s ∈ pre, s.data.head? ≠ some '-') ∧
      (∀ s ∈ packet.Layers.map
          (fun layer => "- " ++ " " ++ LayerType.String reg layer.LayerType),
        s.data.head? = some '-') ∧
      (packet.Layers = [] → handlePacket reg packet = .ok []) := by
  have hmap : packet.Layers.map
      (fun layer => "- " ++ " " ++ LayerType.String reg layer.LayerType)
      = layerLines reg packet := rfl
  have hlines : ∀ s ∈ layerLines reg packet, s.data.head? = some '-' := by
    intro s hs
    obtain ⟨l, _, rfl⟩ := List.mem_map.mp hs
    exact layerLine_head reg l
  have hempty : packet.Layers = [] → handlePacket reg packet = .ok [] := by
    intro h
    have hl : packet.layers = [] := h
    simp [handlePacket, Packet.Layer, layerLines, Packet.Layers, hl]
  rw [hmap]
  cases hE : packet.Layer LayerTypeEthernet with
  | none =>
    refine ⟨[], ?_, by simp [layerLines], by simp, hlines, hempty⟩
    simp [handlePacket, hE]
  | some l =>
    obtain ⟨e, rfl⟩ := Layer_ethernet_of_find packet l hE
    cases hG : packet.Layer GooseLayerType with
    | none =>
      refine ⟨[addressLine e], ?_, by simp [layerLines], ?_, hlines, hempty⟩
      · simp [handlePacket, hE, hG]
      · intro s hs
        rw [List.mem_singleton.mp hs]
        exact addressLine_head e
    | some l' =>
      obtain ⟨g, rfl⟩ := Layer_goose_of_find packet l' hG
      refine ⟨addressLine e :: gooseLines g, ?_, by simp [layerLines], ?_, hlines, hempty⟩
      · simp [handlePacket, hE, hG]
      · intro s hs
        rcases List.mem_cons.mp hs with rfl | hs
        · exact addressLine_head e
        · exact gooseLines_head g s hs

/-- Claim C10 fails on the code: for the sample input the added layer reports
`LayerContents() = [0, 0]`, not the 8 header bytes, and `LayerContents()`
followed by `LayerPayload()` is `[0, 0, 0xAA, 0xBB, 0xCC]`, not the input. -/
theorem LayerContents_sample :
    ∃ g : GooseLayer,
      (decodeGooseLayer sampleData emptyBuilder).2.layers = emptyBuilder.layers ++ [Layer.goose g] ∧
      g.LayerContents = [0, 0] ∧
      g.LayerContents ≠ sampleData.take 8 ∧
      g.LayerContents ++ g.LayerPayload = [0, 0, 0xAA, 0xBB, 0xCC] ∧
      g.LayerContents ++ g.LayerPayload ≠ sampleData :=
  ⟨⟨4660, 16, 0, 0, [0xAA, 0xBB, 0xCC]⟩, rfl, rfl, by decide, rfl, by decide⟩

end Goose
